import Mathlib

/-!
Telemetry core of the artillery operator (`controllers/telemetry.go`).

A shallow embedding of `controllers/telemetry.go` and the properties of its
hashing, property-building, configuration and enqueueing code.

Go strings are byte sequences (`string(localAddr.IP)` in `getIPAddress` is a raw
byte conversion), so a Go `string` is modelled as a list of bytes.
-/

namespace Telemetry

/-! ## Go strings -/

/-- A byte (`uint8`). -/
abbrev Byte := Fin 256

/-- A Go `string` or `[]byte`: a finite sequence of bytes. -/
abbrev GoString := List Byte

/-- The Go string written by a source literal: the UTF-8 bytes of its characters. -/
def lit (s : String) : GoString :=
  (s.toList.flatMap String.utf8EncodeChar).map (fun b => b.val)

/-! ## `encoding/base64`, `StdEncoding.EncodeToString` -/

/-- The alphabet of `base64.StdEncoding` (`encodeStd`). -/
def encodeStd : GoString :=
  lit "ABCDEFGHIJKLMNOPQRSTUVWXYZabcdefghijklmnopqrstuvwxyz0123456789+/"

/-- The padding character of `base64.StdEncoding` (`StdPadding`, the byte of `=`). -/
def padChar : Byte := 61

/-- The table lookup `enc.encode[i]`, for an index already masked with `0x3F`. -/
def encodeAt (i : Nat) : Byte := encodeStd.getD i 0

/-- The body of the main loop of `(*Encoding).Encode`: three source bytes give four
characters through the 24-bit value `val`. -/
def encodeQuantum (a b c : Byte) : GoString :=
  let val := a.val <<< 16 ||| b.val <<< 8 ||| c.val
  [encodeAt (val >>> 18 &&& 0x3F), encodeAt (val >>> 12 &&& 0x3F),
   encodeAt (val >>> 6 &&& 0x3F), encodeAt (val &&& 0x3F)]

/-- `(*Encoding).Encode` of `base64.StdEncoding`: whole groups of three bytes first, then
the one or two remaining bytes, padded with `padChar`. -/
def Encode : GoString → GoString
  | [] => []
  | [a] =>
    let val := a.val <<< 16
    [encodeAt (val >>> 18 &&& 0x3F), encodeAt (val >>> 12 &&& 0x3F), padChar, padChar]
  | [a, b] =>
    let val := a.val <<< 16 ||| b.val <<< 8
    [encodeAt (val >>> 18 &&& 0x3F), encodeAt (val >>> 12 &&& 0x3F),
     encodeAt (val >>> 6 &&& 0x3F), padChar]
  | a :: b :: c :: rest => encodeQuantum a b c ++ Encode rest

/-- `(*Encoding).EncodeToString`. -/
def EncodeToString (src : GoString) : GoString := Encode src

/-! ## `crypto/sha1` -/

/-- Truncation to `uint32`. -/
def u32 (x : Nat) : Nat := x % 2 ^ 32

/-- `bits.RotateLeft32`. -/
def RotateLeft32 (x k : Nat) : Nat := u32 (x <<< k ||| x >>> (32 - k))

/-- Bitwise complement of a `uint32` (`^b`). -/
def not32 (b : Nat) : Nat := b ^^^ 0xFFFFFFFF

/-- The chaining value of a SHA-1 digest (`digest.h`). -/
structure Digest where
  h0 : Nat
  h1 : Nat
  h2 : Nat
  h3 : Nat
  h4 : Nat
deriving DecidableEq, Repr

/-- The initial chaining value (`init0` to `init4`, set by `Reset`). -/
def Digest.init : Digest :=
  ⟨0x67452301, 0xEFCDAB89, 0x98BADCFE, 0x10325476, 0xC3D2E1F0⟩

/-- The working variables of one block: the 16-word window `w` and `a` to `e`. -/
structure Work where
  w : List Nat
  a : Nat
  b : Nat
  c : Nat
  d : Nat
  e : Nat

/-- The round function `f` and constant `_K0` to `_K3` used by round `i`. -/
def roundFK (i b c d : Nat) : Nat × Nat :=
  if i < 20 then (b &&& c ||| not32 b &&& d, 0x5A827999)
  else if i < 40 then (b ^^^ c ^^^ d, 0x6ED9EBA1)
  else if i < 60 then ((b ||| c) &&& d ||| b &&& c, 0x8F1BBCDC)
  else (b ^^^ c ^^^ d, 0xCA62C1D6)

/-- One of the 80 rounds of `blockGeneric`. From round 16 on the window entry
`w[i&0xf]` is first replaced by the rotated xor of four earlier entries. -/
def round (s : Work) (i : Nat) : Work :=
  let w :=
    if i < 16 then s.w
    else
      let tmp := s.w.getD ((i - 3) &&& 0xf) 0 ^^^ s.w.getD ((i - 8) &&& 0xf) 0
        ^^^ s.w.getD ((i - 14) &&& 0xf) 0 ^^^ s.w.getD (i &&& 0xf) 0
      s.w.set (i &&& 0xf) (RotateLeft32 tmp 1)
  let fk := roundFK i s.b s.c s.d
  let t := u32 (RotateLeft32 s.a 5 + fk.1 + s.e + w.getD (i &&& 0xf) 0 + fk.2)
  ⟨w, t, s.a, RotateLeft32 s.b 30, s.c, s.d⟩

/-- Big-endian load of the 32-bit word `i` of a block. -/
def loadWord (p : GoString) (i : Nat) : Nat :=
  let j := i * 4
  (p.getD j 0).val <<< 24 ||| (p.getD (j + 1) 0).val <<< 16
    ||| (p.getD (j + 2) 0).val <<< 8 ||| (p.getD (j + 3) 0).val

/-- The body of the outer loop of `blockGeneric`: one 64-byte chunk. -/
def blockStep (dig : Digest) (p : GoString) : Digest :=
  let w := (List.range 16).map (loadWord p)
  let s := (List.range 80).foldl round ⟨w, dig.h0, dig.h1, dig.h2, dig.h3, dig.h4⟩
  ⟨u32 (dig.h0 + s.a), u32 (dig.h1 + s.b), u32 (dig.h2 + s.c), u32 (dig.h3 + s.d),
   u32 (dig.h4 + s.e)⟩

/-- The loop `for len(p) >= chunk` of `blockGeneric`, run for `n` chunks. -/
def blockGeneric : Nat → Digest → GoString → Digest
  | 0, dig, _ => dig
  | n + 1, dig, p => blockGeneric n (blockStep dig (p.take 64)) (p.drop 64)

/-- Big-endian bytes of an unsigned integer of `n` bytes (`binary.BigEndian.PutUint32`,
`PutUint64`). -/
def putBE : Nat → Nat → GoString
  | 0, _ => []
  | n + 1, x => Fin.ofNat (x >>> (8 * n)) :: putBE n x

/-- The padding written by `checkSum`: `0x80`, zeros up to 56 mod 64, then the length in
bits as a `uint64`. -/
def padding (len : Nat) : GoString :=
  let t := if len % 64 < 56 then 56 - len % 64 else 64 + 56 - len % 64
  (128 : Byte) :: List.replicate (t - 1) 0 ++ putBE 8 ((len <<< 3) % 2 ^ 64)

/-- The digest bytes of `h := sha1.New(); h.Write(data); h.Sum(nil)`. -/
def sha1Sum (data : GoString) : GoString :=
  let p := data ++ padding data.length
  let d := blockGeneric (p.length / 64) Digest.init p
  putBE 4 d.h0 ++ putBE 4 d.h1 ++ putBE 4 d.h2 ++ putBE 4 d.h3 ++ putBE 4 d.h4

/-! ## `telemetry.go`: hashing -/

/-- The function `hashEncode`: the base64 text of the SHA-1 digest of `v`. -/
def hashEncode (v : GoString) : GoString :=
  let hashed := sha1Sum v
  EncodeToString hashed

/-! ## Values, maps, errors and the platform -/

/-- A value of type `interface{}`: `nil`, a string, or any other dynamic value, of a
type `α` left open. -/
inductive Value (α : Type) where
  | nil : Value α
  | str (s : GoString) : Value α
  | other (a : α) : Value α
deriving DecidableEq

/-- A Go `map[string]V`: entries with pairwise distinct keys. The `nil` map and the
empty map are both `∅`; reading and ranging over them agree. -/
abbrev GoMap (V : Type) := AList (fun _ : GoString => V)

/-- The order in which `for k, v := range m` visits a map: Go leaves it unspecified, so
it is any function that lists every entry exactly once. -/
structure MapRange (V : Type) where
  order : GoMap V → List (Sigma (fun _ : GoString => V))
  perm : ∀ m, (order m).Perm m.entries

/-- The iteration that visits the entries in the order in which they are stored. -/
def MapRange.stored (V : Type) : MapRange V := ⟨fun m => m.entries, fun _ => List.Perm.refl _⟩

/-- One call of `logger.Info(msg, keysAndValues...)`. -/
structure LogEntry (α : Type) where
  msg : GoString
  keysAndValues : List (Value α)
deriving DecidableEq

/-- The package constants and the platform calls used by `telemetry.go`. The constants
`AppName`, `Version`, `WorkerImage` and `PosthogToken` are declared elsewhere in the
package; `ε` is the type of non-nil `error` values. -/
structure Platform (ε : Type) where
  AppName : GoString
  Version : GoString
  WorkerImage : GoString
  PosthogToken : GoString
  /-- The constant `runtime.GOOS`. -/
  GOOS : GoString
  /-- The function `strings.ToLower`. -/
  ToLower : GoString → GoString
  /-- The outcome of `os.Hostname()`. -/
  Hostname : Except ε GoString
  /-- The outcome of `net.Dial("udp", "8.8.8.8:80")`: an error, or a connection whose
  `LocalAddr()` is a UDP address with these `IP` bytes. -/
  Dial : Except ε GoString
  /-- The outcome of `machineid.ProtectedID(appID)`. -/
  ProtectedID : GoString → Except ε GoString

/-! ## The dispatch client (`posthog.Client`) -/

/-- The message `posthog.Capture`, with the fields that `telemetryEnqueue` sets. -/
structure Capture (α : Type) where
  DistinctId : GoString
  Event : GoString
  Properties : GoMap (Value α)

/-- A `posthog.Message`: a `Capture`, or any other kind of message. -/
inductive Message (α : Type) where
  | capture (c : Capture α) : Message α
  | other (a : α) : Message α

/-- The zero value `posthog.Config{}`. -/
structure Config where
deriving DecidableEq

/-- An implementation of the interface `posthog.Client` together with its current state:
every method may read and change the state. `φ` is the type `posthog.FeatureFlag`. -/
structure Client (α ε φ : Type) where
  State : Type
  state : State
  Close : State → Option ε × State
  Enqueue : Message α → State → Option ε × State
  IsFeatureEnabled : GoString → GoString → Bool → State → (Bool × Option ε) × State
  ReloadFeatureFlags : State → Option ε × State
  GetFeatureFlags : State → (List φ × Option ε) × State

/-- The type `noopClient`, an empty struct whose five methods return at once. -/
def noopClient (α ε φ : Type) : Client α ε φ where
  State := Unit
  state := ()
  Close := fun n => (none, n)
  Enqueue := fun _ n => (none, n)
  IsFeatureEnabled := fun _ _ _ n => ((true, none), n)
  ReloadFeatureFlags := fun n => (none, n)
  GetFeatureFlags := fun n => (([], none), n)

/-- The two switches of the telemetry configuration. -/
structure TelemetryConfig where
  Disable : Bool
  Debug : Bool
deriving DecidableEq, Repr

/-- The function `NewTelemetryClient`; `NewWithConfig` is `posthog.NewWithConfig`. -/
def NewTelemetryClient {α ε φ : Type} (p : Platform ε)
    (NewWithConfig : GoString → Config → Option (Client α ε φ) × Option ε)
    (tCfg : TelemetryConfig) : Option (Client α ε φ) × Option ε :=
  if tCfg.Disable then
    (some (noopClient α ε φ), none)
  else
    NewWithConfig p.PosthogToken {}

/-! ## `telemetry.go`: identity, properties and enqueueing -/

/-- The type `telemetryEvent`. -/
structure telemetryEvent (α : Type) where
  Name : GoString
  Properties : GoMap (Value α)

/-- The function `protectedDistinctId`. -/
def protectedDistinctId {ε : Type} (p : Platform ε) : Except ε GoString :=
  p.ProtectedID p.AppName

/-- The function `getIPAddress`: the empty string when the dial fails, else the bytes of
the local address. -/
def getIPAddress {ε : Type} (p : Platform ε) : GoString :=
  match p.Dial with
  | .error _ => lit ""
  | .ok ip => ip

/-- The map literal of `buildProperties`, before the entries of `extra` are written. -/
def fixedProperties {α ε : Type} (p : Platform ε) (hostname : GoString) : GoMap (Value α) :=
  (((((((∅ : GoMap (Value α)).insert (lit "source") (.str p.AppName)).insert
    (lit "version") (.str p.Version)).insert
    (lit "containerOS") (.str (p.ToLower p.GOOS))).insert
    (lit "workerImage") (.str p.WorkerImage)).insert
    (lit "ipHash") (.str (hashEncode (getIPAddress p)))).insert
    (lit "hostnameHash") (.str (hashEncode hostname))).insert
    (lit "$ip") .nil

/-- The function `buildProperties`. -/
def buildProperties {α ε : Type} (p : Platform ε) (r : MapRange (Value α))
    (extra : GoMap (Value α)) : GoMap (Value α) :=
  let hostname :=
    match p.Hostname with
    | .error _ => lit ""
    | .ok h => h
  let properties := fixedProperties p hostname
  (r.order extra).foldl (fun properties kv => properties.insert kv.1 kv.2) properties

/-- The function `debugTelemetryProperties`: the log entries it writes. -/
def debugTelemetryProperties {α : Type} (r : MapRange (Value α)) (props : GoMap (Value α)) :
    List (LogEntry α) :=
  (r.order props).map (fun kv => ⟨lit "ARTILLERY_TELEMETRY_DEBUG=true", [.str kv.1, kv.2]⟩)

/-- What one call of `telemetryEnqueue` returns and does: the returned error (`none` is
`nil`), the log entries written, the messages passed to `client.Enqueue` in order, the
number of calls of `protectedDistinctId`, and the state of the client afterwards. -/
structure Enqueued (α ε σ : Type) where
  ret : Option ε
  log : List (LogEntry α)
  calls : List (Message α)
  idLookups : Nat
  state : σ

/-- The function `telemetryEnqueue`. -/
def telemetryEnqueue {α ε φ : Type} (p : Platform ε) (r : MapRange (Value α))
    (client : Client α ε φ) (config : TelemetryConfig) (event : telemetryEvent α) :
    Enqueued α ε client.State :=
  let properties := buildProperties p r event.Properties
  if config.Debug then
    ⟨none, debugTelemetryProperties r properties, [], 0, client.state⟩
  else
    match protectedDistinctId p with
    | .error err => ⟨some err, [], [], 1, client.state⟩
    | .ok distinctId =>
      let msg := Message.capture ⟨distinctId, event.Name, properties⟩
      match client.Enqueue msg client.state with
      | (some err, st) => ⟨some err, [], [msg], 1, st⟩
      | (none, st) => ⟨none, [], [msg], 1, st⟩

/-! ## `telemetry.go`: configuration -/

/-- The function `strconv.ParseBool`; `none` is its syntax error. -/
def ParseBool (str : GoString) : Option Bool :=
  if str ∈ [lit "1", lit "t", lit "T", lit "true", lit "TRUE", lit "True"] then some true
  else if str ∈ [lit "0", lit "f", lit "F", lit "false", lit "FALSE", lit "False"] then
    some false
  else none

/-- The function `strconv.FormatBool`. -/
def FormatBool (b : Bool) : GoString := if b then lit "true" else lit "false"

/-- The function `getTelemetryDisableConfig`, with the log entries it writes;
`LookupEnv` is `os.LookupEnv`. -/
def getTelemetryDisableConfig (α : Type) (LookupEnv : GoString → Option GoString) :
    Bool × List (LogEntry α) :=
  match LookupEnv (lit "ARTILLERY_DISABLE_TELEMETRY") with
  | none => (false, [⟨lit "ARTILLERY_DISABLE_TELEMETRY was not set!", []⟩])
  | some disable =>
    match ParseBool disable with
    | none => (false, [⟨lit ("ARTILLERY_DISABLE_TELEMETRY was not set with boolean type value."
        ++ " TELEMETRY REMAINS ENABLED"), []⟩])
    | some parsedDisable => (parsedDisable, [])

/-- The function `getTelemetryDebugConfig`, with the log entries it writes. -/
def getTelemetryDebugConfig (α : Type) (LookupEnv : GoString → Option GoString) :
    Bool × List (LogEntry α) :=
  match LookupEnv (lit "ARTILLERY_TELEMETRY_DEBUG") with
  | none => (false, [⟨lit "ARTILLERY_TELEMETRY_DEBUG was not set!", []⟩])
  | some debug =>
    match ParseBool debug with
    | none => (false, [⟨lit ("ARTILLERY_TELEMETRY_DEBUG was not set with boolean type value."
        ++ " TELEMETRY DEBUG REMAINS DISABLED"), []⟩])
    | some parsedDebug => (parsedDebug, [])

/-- The function `NewTelemetryConfig`, with the log entries it writes. -/
def NewTelemetryConfig (α : Type) (LookupEnv : GoString → Option GoString) :
    TelemetryConfig × List (LogEntry α) :=
  let result : TelemetryConfig := ⟨false, false⟩
  let disable := getTelemetryDisableConfig α LookupEnv
  let result := if disable.1 then { result with Disable := true } else result
  let debug := getTelemetryDebugConfig α LookupEnv
  let result := if debug.1 then { result with Debug := true } else result
  (result, disable.2 ++ debug.2)

/-- The type `core.EnvVar`, with the fields that `toEnvVar` sets. -/
structure EnvVar where
  Name : GoString
  Value : GoString
deriving DecidableEq

/-- The method `TelemetryConfig.toEnvVar`. -/
def TelemetryConfig.toEnvVar (t : TelemetryConfig) : List EnvVar :=
  [⟨lit "ARTILLERY_DISABLE_TELEMETRY", FormatBool t.Disable⟩,
   ⟨lit "ARTILLERY_TELEMETRY_DEBUG", FormatBool t.Debug⟩]

/-- The lookup `os.LookupEnv` of a process whose environment holds exactly the
variables `vars`. -/
def envOf (vars : List EnvVar) (name : GoString) : Option GoString :=
  (vars.find? (fun v => v.Name = name)).map (fun v => v.Value)

/-! ## Example inputs -/

/-- A platform on which every lookup succeeds. -/
def onlinePlatform : Platform GoString where
  AppName := lit "artillery-operator"
  Version := lit "0.1.0"
  WorkerImage := lit "artilleryio/artillery:latest"
  PosthogToken := lit "token"
  GOOS := lit "linux"
  ToLower := id
  Hostname := .ok (lit "worker-1")
  Dial := .ok [10, 0, 0, 7]
  ProtectedID := fun _ => .ok (lit "machine-1")

/-- A platform on which the hostname, the dial and the machine identity all fail. -/
def restrictedPlatform : Platform GoString where
  AppName := lit "artillery-operator"
  Version := lit "0.1.0"
  WorkerImage := lit "artilleryio/artillery:latest"
  PosthogToken := lit "token"
  GOOS := lit "linux"
  ToLower := id
  Hostname := .error (lit "hostname: not permitted")
  Dial := .error (lit "dial udp: network is unreachable")
  ProtectedID := fun _ => .error (lit "machineid: not permitted")

/-- A client whose `Enqueue` always fails and counts its calls in its state. -/
def failingClient : Client Nat GoString Unit where
  State := Nat
  state := 0
  Close := fun n => (none, n)
  Enqueue := fun _ n => (some (lit "queue full"), n + 1)
  IsFeatureEnabled := fun _ _ d n => ((d, none), n)
  ReloadFeatureFlags := fun n => (none, n)
  GetFeatureFlags := fun n => (([], none), n)

/-- An event with two properties, one of them under the fixed key `source`. -/
def installEvent : telemetryEvent Nat where
  Name := lit "operator installed"
  Properties := ((∅ : GoMap (Value Nat)).insert (lit "source") (.str (lit "test"))).insert
    (lit "count") (.other 3)

/-! ## Decoding, used to show that `Encode` loses nothing -/

/-- The position of a character in the alphabet `encodeStd`. -/
def decodeAt (c : Byte) : Nat := encodeStd.indexOf c

/-- A left inverse of `Encode`: four characters give back three, two or one bytes
according to the padding. -/
def Decode : GoString → GoString
  | c1 :: c2 :: c3 :: c4 :: rest =>
    let b1 : Byte := Fin.ofNat (decodeAt c1 * 4 + decodeAt c2 / 16)
    let b2 : Byte := Fin.ofNat (decodeAt c2 % 16 * 16 + decodeAt c3 / 4)
    let b3 : Byte := Fin.ofNat (decodeAt c3 % 4 * 64 + decodeAt c4)
    if c3 = padChar then [b1]
    else if c4 = padChar then [b1, b2]
    else b1 :: b2 :: b3 :: Decode rest
  | _ => []

/-! ## Lemmas on the base64 encoding -/

theorem val3_eq (a b c : Nat) (hb : b < 256) (hc : c < 256) :
    a <<< 16 ||| b <<< 8 ||| c = a * 65536 + b * 256 + c := by
  have h1 : a <<< 16 ||| b <<< 8 = 2 ^ 16 * a + b * 256 := by
    rw [Nat.shiftLeft_eq, Nat.shiftLeft_eq, Nat.mul_comm a (2 ^ 16)]
    exact (Nat.mul_add_lt_is_or (by omega) a).symm
  have h2 : 2 ^ 16 * a + b * 256 = 2 ^ 8 * (256 * a + b) := by omega
  rw [h1, h2, ← Nat.mul_add_lt_is_or (by omega)]
  omega

theorem and_63 (x : Nat) : x &&& 63 = x % 64 := Nat.and_pow_two_sub_one_eq_mod x 6

theorem sextet1 (a b c : Nat) (ha : a < 256) (hb : b < 256) (hc : c < 256) :
    (a <<< 16 ||| b <<< 8 ||| c) >>> 18 &&& 63 = a / 4 := by
  rw [val3_eq a b c hb hc, and_63, Nat.shiftRight_eq_div_pow]
  omega

theorem sextet2 (a b c : Nat) (hb : b < 256) (hc : c < 256) :
    (a <<< 16 ||| b <<< 8 ||| c) >>> 12 &&& 63 = a % 4 * 16 + b / 16 := by
  rw [val3_eq a b c hb hc, and_63, Nat.shiftRight_eq_div_pow]
  omega

theorem sextet3 (a b c : Nat) (hb : b < 256) (hc : c < 256) :
    (a <<< 16 ||| b <<< 8 ||| c) >>> 6 &&& 63 = b % 16 * 4 + c / 64 := by
  rw [val3_eq a b c hb hc, and_63, Nat.shiftRight_eq_div_pow]
  omega

theorem sextet4 (a b c : Nat) (hb : b < 256) (hc : c < 256) :
    (a <<< 16 ||| b <<< 8 ||| c) &&& 63 = c % 64 := by
  rw [val3_eq a b c hb hc, and_63]
  omega

theorem decodeAt_encodeAt (i : Nat) (h : i < 64) : decodeAt (encodeAt i) = i := by
  have key : ∀ j : Fin 64, decodeAt (encodeAt j.val) = j.val := by decide!
  exact key ⟨i, h⟩

theorem encodeAt_mem (i : Nat) (h : i < 64) : encodeAt i ∈ encodeStd := by
  have key : ∀ j : Fin 64, encodeAt j.val ∈ encodeStd := by decide!
  exact key ⟨i, h⟩

theorem padChar_not_mem : padChar ∉ encodeStd := by decide!

theorem encodeAt_ne_pad (i : Nat) (h : i < 64) : encodeAt i ≠ padChar := by
  intro e
  exact padChar_not_mem (e ▸ encodeAt_mem i h)

theorem val2_eq (a b : Nat) : a <<< 16 ||| b <<< 8 = a <<< 16 ||| b <<< 8 ||| 0 := by simp

theorem val1_eq (a : Nat) : a <<< 16 = a <<< 16 ||| 0 <<< 8 ||| 0 := by simp

theorem byte_ofNat (a : Byte) (x : Nat) (h : x = a.val) : (Fin.ofNat x : Byte) = a := by
  apply Fin.ext
  subst h
  simp [Fin.ofNat]

/-- Decoding an encoded byte sequence gives the sequence back. -/
theorem Decode_Encode : ∀ l : GoString, Decode (Encode l) = l
  | [] => rfl
  | [a] => by
    have ha := a.isLt
    simp only [Encode, Decode, if_true]
    rw [val1_eq, sextet1 _ _ _ ha (by omega) (by omega), sextet2 _ _ _ (by omega) (by omega),
      decodeAt_encodeAt _ (by omega), decodeAt_encodeAt _ (by omega)]
    rw [byte_ofNat a _ (by omega)]
  | [a, b] => by
    have ha := a.isLt
    have hb := b.isLt
    simp only [Encode, Decode]
    rw [val2_eq, sextet1 _ _ _ ha hb (by omega), sextet2 _ _ _ hb (by omega),
      sextet3 _ _ _ hb (by omega)]
    rw [if_neg (encodeAt_ne_pad _ (by omega)), if_pos trivial,
      decodeAt_encodeAt _ (by omega), decodeAt_encodeAt _ (by omega),
      decodeAt_encodeAt _ (by omega)]
    rw [byte_ofNat a _ (by omega), byte_ofNat b _ (by omega)]
  | a :: b :: c :: rest => by
    have ha := a.isLt
    have hb := b.isLt
    have hc := c.isLt
    simp only [Encode, encodeQuantum, Decode, List.cons_append, List.nil_append]
    rw [sextet1 _ _ _ ha hb hc, sextet2 _ _ _ hb hc, sextet3 _ _ _ hb hc, sextet4 _ _ _ hb hc]
    rw [if_neg (encodeAt_ne_pad _ (by omega)), if_neg (encodeAt_ne_pad _ (by omega)),
      decodeAt_encodeAt _ (by omega), decodeAt_encodeAt _ (by omega),
      decodeAt_encodeAt _ (by omega), decodeAt_encodeAt _ (by omega)]
    rw [byte_ofNat a _ (by omega), byte_ofNat b _ (by omega), byte_ofNat c _ (by omega)]
    simp only [List.append_eq, List.nil_append, Decode_Encode rest]

/-- The base64 encoding is injective. -/
theorem Encode_injective : Function.Injective Encode :=
  Function.LeftInverse.injective Decode_Encode

/-! ## Lemmas on the digest and its text -/

theorem putBE_length (n x : Nat) : (putBE n x).length = n := by
  induction n with
  | zero => rfl
  | succ n ih => simp [putBE, ih]

theorem sha1Sum_length (data : GoString) : (sha1Sum data).length = 20 := by
  simp [sha1Sum, putBE_length]

theorem encodeAt_and_mem (x : Nat) : encodeAt (x &&& 0x3F) ∈ encodeStd := by
  apply encodeAt_mem
  show x &&& 63 < 64
  rw [and_63]
  omega

theorem encodeQuantum_mem (a b c : Byte) : ∀ x ∈ encodeQuantum a b c, x ∈ encodeStd := by
  intro x hx
  simp only [encodeQuantum, List.mem_cons, List.mem_singleton, List.not_mem_nil, or_false] at hx
  rcases hx with h | h | h | h <;> subst h <;> exact encodeAt_and_mem _

/-- The text of a sequence of `3 * n + 2` bytes is `4 * n + 3` characters of the alphabet
followed by one padding character. -/
theorem Encode_two_left (n : Nat) : ∀ l : GoString, l.length = 3 * n + 2 →
    ∃ body, Encode l = body ++ [padChar] ∧ body.length = 4 * n + 3 ∧
      ∀ x ∈ body, x ∈ encodeStd := by
  induction n with
  | zero =>
    intro l hl
    match l, hl with
    | [a, b], _ =>
      refine ⟨[encodeAt ((a.val <<< 16 ||| b.val <<< 8) >>> 18 &&& 0x3F),
        encodeAt ((a.val <<< 16 ||| b.val <<< 8) >>> 12 &&& 0x3F),
        encodeAt ((a.val <<< 16 ||| b.val <<< 8) >>> 6 &&& 0x3F)], rfl, rfl, ?_⟩
      intro x hx
      simp only [List.mem_cons, List.mem_singleton, List.not_mem_nil, or_false] at hx
      rcases hx with h | h | h <;> subst h <;> exact encodeAt_and_mem _
  | succ n ih =>
    intro l hl
    match l, hl with
    | a :: b :: c :: rest, hl =>
      obtain ⟨body, hb, hlen, hmem⟩ := ih rest (by simp at hl; omega)
      refine ⟨encodeQuantum a b c ++ body, ?_, ?_, ?_⟩
      · simp [Encode, hb]
      · simp [encodeQuantum, hlen]; omega
      · intro x hx
        rcases List.mem_append.mp hx with h | h
        · exact encodeQuantum_mem a b c x h
        · exact hmem x h

theorem encodeStd_printable : ∀ x ∈ encodeStd, 0x20 < x.val ∧ x.val < 0x7F := by decide!

/-- The padded message is a whole number of 64-byte chunks, so `blockGeneric` consumes
all of it. -/
theorem padded_length (data : GoString) :
    (data ++ padding data.length).length % 64 = 0 := by
  simp only [padding, List.length_append, List.length_cons, List.length_replicate,
    putBE_length]
  split_ifs <;> omega

/-- The digest of `abc` (one chunk), as in FIPS 180. -/
theorem sha1Sum_abc :
    (sha1Sum (lit "abc")).map (fun b => b.val)
      = [0xa9, 0x99, 0x3e, 0x36, 0x47, 0x06, 0x81, 0x6a, 0xba, 0x3e,
         0x25, 0x71, 0x78, 0x50, 0xc2, 0x6c, 0x9c, 0xd0, 0xd8, 0x9d] := by decide!

/-- The digest of the 56-byte message of FIPS 180 (two chunks). -/
theorem sha1Sum_two_chunks :
    (sha1Sum (lit "abcdbcdecdefdefgefghfghighijhijkijkljklmklmnlmnomnopnopq")).map
        (fun b => b.val)
      = [0x84, 0x98, 0x3e, 0x44, 0x1c, 0x3b, 0xd2, 0x6e, 0xba, 0xae,
         0x4a, 0xa1, 0xf9, 0x51, 0x29, 0xe5, 0xe5, 0x46, 0x70, 0xf1] := by decide!

/-! ## Lemmas on maps -/

/-- Writing the entries of a list with distinct keys into a map, one after the other:
a key of the list reads its value in the list, any other key reads as before. -/
theorem foldl_insert_lookup {V : Type} :
    ∀ (l : List (Sigma (fun _ : GoString => V))), l.NodupKeys →
      ∀ (m : GoMap V) (k : GoString),
        (l.foldl (fun properties kv => properties.insert kv.1 kv.2) m).lookup k
          = (l.dlookup k).or (m.lookup k)
  | [], _, m, k => by simp
  | ⟨a, b⟩ :: t, hn, m, k => by
    have hc := List.nodupKeys_cons.mp hn
    rw [List.foldl_cons, foldl_insert_lookup t hc.2 _ k]
    by_cases hk : k = a
    · subst hk
      have hnone : List.dlookup k t = none := List.dlookup_eq_none.mpr hc.1
      simp [hnone, List.dlookup_cons_eq]
    · rw [List.dlookup_cons_ne t ⟨a, b⟩ hk, AList.lookup_insert_ne hk]

/-- Reading a key of the map that `buildProperties` returns. -/
theorem buildProperties_lookup {α ε : Type} (p : Platform ε) (r : MapRange (Value α))
    (extra : GoMap (Value α)) (k : GoString) :
    (buildProperties p r extra).lookup k
      = (extra.lookup k).or ((fixedProperties p
          (match p.Hostname with
            | .error _ => lit ""
            | .ok h => h)).lookup k) := by
  have hn : (r.order extra).NodupKeys := (List.perm_nodupKeys (r.perm extra)).mpr extra.nodupKeys
  unfold buildProperties
  simp only []
  rw [foldl_insert_lookup _ hn, List.perm_dlookup k hn extra.nodupKeys (r.perm extra)]
  rfl

/-- The keys of the map literal of `buildProperties`. -/
theorem mem_fixedProperties {α ε : Type} (p : Platform ε) (hostname k : GoString) :
    k ∈ (fixedProperties p hostname : GoMap (Value α))
      ↔ k ∈ [lit "source", lit "version", lit "containerOS", lit "workerImage", lit "ipHash",
          lit "hostnameHash", lit "$ip"] := by
  simp only [fixedProperties, AList.mem_insert, AList.not_mem_empty, List.mem_cons,
    List.mem_singleton, List.not_mem_nil, or_false]
  tauto

/-! ## The environment fingerprinter -/

/-- C4: for every map `extra` (the empty or `nil` map included), every iteration order
and every outcome of the hostname and IP lookups, the keys of `buildProperties(extra)`
are exactly the seven fixed keys and the keys of `extra`; every key of `extra` reads its
value in `extra`, also when it is one of the fixed keys; and every fixed key that is not
in `extra` reads its environment value, with the empty string hashed where a lookup
fails and `nil` under `$ip`. -/
theorem buildProperties_keys_and_values {α ε : Type} (p : Platform ε)
    (r : MapRange (Value α)) (extra : GoMap (Value α)) :
    (∀ k, k ∈ buildProperties p r extra
      ↔ k ∈ [lit "source", lit "version", lit "containerOS", lit "workerImage", lit "ipHash",
          lit "hostnameHash", lit "$ip"] ∨ k ∈ extra) ∧
    (∀ k v, extra.lookup k = some v → (buildProperties p r extra).lookup k = some v) ∧
    (lit "source" ∉ extra →
      (buildProperties p r extra).lookup (lit "source") = some (.str p.AppName)) ∧
    (lit "version" ∉ extra →
      (buildProperties p r extra).lookup (lit "version") = some (.str p.Version)) ∧
    (lit "containerOS" ∉ extra →
      (buildProperties p r extra).lookup (lit "containerOS")
        = some (.str (p.ToLower p.GOOS))) ∧
    (lit "workerImage" ∉ extra →
      (buildProperties p r extra).lookup (lit "workerImage") = some (.str p.WorkerImage)) ∧
    (lit "ipHash" ∉ extra →
      (buildProperties p r extra).lookup (lit "ipHash")
        = some (.str (hashEncode
            (match p.Dial with
              | .error _ => lit ""
              | .ok ip => ip)))) ∧
    (lit "hostnameHash" ∉ extra →
      (buildProperties p r extra).lookup (lit "hostnameHash")
        = some (.str (hashEncode
            (match p.Hostname with
              | .error _ => lit ""
              | .ok h => h)))) ∧
    (lit "$ip" ∉ extra → (buildProperties p r extra).lookup (lit "$ip") = some .nil) := by
  refine ⟨?_, ?_, ?_, ?_, ?_, ?_, ?_, ?_, ?_⟩
  · intro k
    rw [← AList.lookup_isSome, buildProperties_lookup, Option.isSome_or, Bool.or_eq_true,
      AList.lookup_isSome, AList.lookup_isSome, mem_fixedProperties]
    tauto
  · intro k v h
    rw [buildProperties_lookup, h]
    rfl
  all_goals
    intro h
    rw [buildProperties_lookup, AList.lookup_eq_none.mpr h, Option.none_or]
    rfl

/-- Witness of C4: an event that sets `source` and `count`, on a working platform. -/
theorem buildProperties_keys_and_values_witness :
    lit "version" ∉ installEvent.Properties ∧
    (buildProperties onlinePlatform (MapRange.stored _) installEvent.Properties).lookup
      (lit "version") = some (.str (lit "0.1.0")) ∧
    (buildProperties onlinePlatform (MapRange.stored _) installEvent.Properties).lookup
      (lit "source") = some (.str (lit "test")) :=
  ⟨by decide,
    (buildProperties_keys_and_values onlinePlatform (MapRange.stored _)
      installEvent.Properties).2.2.2.1 (by decide),
    (buildProperties_keys_and_values onlinePlatform (MapRange.stored _)
      installEvent.Properties).2.1 _ _ (by decide)⟩

/-! ## The enqueuer -/

/-- C1: in debug mode (`Debug = true`), whatever `Disable` is, whatever the client and
whether or not the machine identity can be resolved, `telemetryEnqueue` returns `nil`,
makes no call of the client's `Enqueue`, and leaves the client's state as it was. -/
theorem telemetryEnqueue_debug_never_dispatches {α ε φ : Type} (p : Platform ε)
    (r : MapRange (Value α)) (client : Client α ε φ) (disable : Bool)
    (event : telemetryEvent α) :
    (telemetryEnqueue p r client ⟨disable, true⟩ event).ret = none ∧
    (telemetryEnqueue p r client ⟨disable, true⟩ event).calls = [] ∧
    (telemetryEnqueue p r client ⟨disable, true⟩ event).state = client.state := by
  simp [telemetryEnqueue]

/-- C2: with `Debug = false`, when the machine identity resolves to `d`,
`telemetryEnqueue` calls the client's `Enqueue` exactly once, with the capture made of
`d`, the event name and `buildProperties(event.Properties)`, and returns exactly what
that call returned: the error of the client, or `nil`. -/
theorem telemetryEnqueue_dispatches_once {α ε φ : Type} (p : Platform ε)
    (r : MapRange (Value α)) (client : Client α ε φ) (disable : Bool)
    (event : telemetryEvent α) (d : GoString) (h : protectedDistinctId p = .ok d) :
    (telemetryEnqueue p r client ⟨disable, false⟩ event).calls
      = [.capture ⟨d, event.Name, buildProperties p r event.Properties⟩] ∧
    (telemetryEnqueue p r client ⟨disable, false⟩ event).ret
      = (client.Enqueue (.capture ⟨d, event.Name, buildProperties p r event.Properties⟩)
          client.state).1 ∧
    (telemetryEnqueue p r client ⟨disable, false⟩ event).state
      = (client.Enqueue (.capture ⟨d, event.Name, buildProperties p r event.Properties⟩)
          client.state).2 := by
  simp only [telemetryEnqueue, h, Bool.false_eq_true, if_false]
  rcases hq : client.Enqueue (.capture ⟨d, event.Name, buildProperties p r event.Properties⟩)
    client.state with ⟨_ | err, st⟩ <;> simp

/-- Witness of C2: the failing client is called once and its error comes back. -/
theorem telemetryEnqueue_dispatches_once_witness :
    protectedDistinctId onlinePlatform = .ok (lit "machine-1") ∧
    (telemetryEnqueue onlinePlatform (MapRange.stored _) failingClient ⟨false, false⟩
      installEvent).ret = some (lit "queue full") ∧
    (telemetryEnqueue onlinePlatform (MapRange.stored _) failingClient ⟨false, false⟩
      installEvent).state = (1 : Nat) :=
  ⟨rfl,
    (telemetryEnqueue_dispatches_once onlinePlatform (MapRange.stored _) failingClient false
      installEvent (lit "machine-1") rfl).2.1,
    (telemetryEnqueue_dispatches_once onlinePlatform (MapRange.stored _) failingClient false
      installEvent (lit "machine-1") rfl).2.2⟩

/-- C3: with `Debug = false`, when `protectedDistinctId` fails with the error `e`,
`telemetryEnqueue` returns `e` and the client's `Enqueue` is never called, for every
client, the no-op client included. -/
theorem telemetryEnqueue_identity_error {α ε φ : Type} (p : Platform ε)
    (r : MapRange (Value α)) (client : Client α ε φ) (disable : Bool)
    (event : telemetryEvent α) (e : ε) (h : protectedDistinctId p = .error e) :
    (telemetryEnqueue p r client ⟨disable, false⟩ event).ret = some e ∧
    (telemetryEnqueue p r client ⟨disable, false⟩ event).calls = [] ∧
    (telemetryEnqueue p r client ⟨disable, false⟩ event).state = client.state := by
  simp [telemetryEnqueue, h]

/-- Witness of C3: the no-op client on a platform without machine identity. -/
theorem telemetryEnqueue_identity_error_witness :
    protectedDistinctId restrictedPlatform = .error (lit "machineid: not permitted") ∧
    (telemetryEnqueue restrictedPlatform (MapRange.stored _) (noopClient Nat GoString Unit)
      ⟨true, false⟩ installEvent).ret = some (lit "machineid: not permitted") ∧
    (telemetryEnqueue restrictedPlatform (MapRange.stored _) (noopClient Nat GoString Unit)
      ⟨true, false⟩ installEvent).calls = [] :=
  ⟨rfl,
    (telemetryEnqueue_identity_error restrictedPlatform (MapRange.stored _)
      (noopClient Nat GoString Unit) true installEvent _ rfl).1,
    (telemetryEnqueue_identity_error restrictedPlatform (MapRange.stored _)
      (noopClient Nat GoString Unit) true installEvent _ rfl).2.1⟩

/-- C9: in debug mode the log entries written by `telemetryEnqueue` are, up to order,
one entry per entry of `buildProperties(event.Properties)`, with the message
`ARTILLERY_TELEMETRY_DEBUG=true` and that key and its value; `protectedDistinctId` is not
called, and the log is the same whatever the machine identity lookup would give. -/
theorem telemetryEnqueue_debug_log {α ε φ : Type} (p : Platform ε)
    (r : MapRange (Value α)) (client : Client α ε φ) (disable : Bool)
    (event : telemetryEvent α) :
    (telemetryEnqueue p r client ⟨disable, true⟩ event).log.Perm
      ((buildProperties p r event.Properties).entries.map
        (fun kv => ⟨lit "ARTILLERY_TELEMETRY_DEBUG=true", [.str kv.1, kv.2]⟩)) ∧
    (telemetryEnqueue p r client ⟨disable, true⟩ event).log.length
      = (buildProperties p r event.Properties).keys.length ∧
    (telemetryEnqueue p r client ⟨disable, true⟩ event).idLookups = 0 ∧
    ∀ f : GoString → Except ε GoString,
      (telemetryEnqueue { p with ProtectedID := f } r client ⟨disable, true⟩ event).log
        = (telemetryEnqueue p r client ⟨disable, true⟩ event).log := by
  refine ⟨?_, ?_, ?_, ?_⟩
  · simp only [telemetryEnqueue, if_true, debugTelemetryProperties]
    exact (r.perm _).map _
  · simp only [telemetryEnqueue, if_true, debugTelemetryProperties, List.length_map]
    rw [(r.perm _).length_eq, AList.keys, List.keys, List.length_map]
  · simp [telemetryEnqueue]
  · intro f
    rfl

/-! ## The configuration -/

theorem ParseBool_true_iff (v : GoString) :
    ParseBool v = some true
      ↔ v ∈ [lit "1", lit "t", lit "T", lit "TRUE", lit "true", lit "True"] := by
  unfold ParseBool
  split_ifs with h1 h2
  · simp only [true_iff]
    simp only [List.mem_cons, List.mem_singleton, List.not_mem_nil, or_false] at h1 ⊢
    tauto
  · simp only [Option.some.injEq, Bool.false_eq_true, false_iff]
    intro h
    apply h1
    simp only [List.mem_cons, List.mem_singleton, List.not_mem_nil, or_false] at h ⊢
    tauto
  · simp only [false_iff, reduceCtorEq]
    intro h
    apply h1
    simp only [List.mem_cons, List.mem_singleton, List.not_mem_nil, or_false] at h ⊢
    tauto

theorem NewTelemetryConfig_fst (α : Type) (LookupEnv : GoString → Option GoString) :
    (NewTelemetryConfig α LookupEnv).1
      = ⟨(getTelemetryDisableConfig α LookupEnv).1, (getTelemetryDebugConfig α LookupEnv).1⟩ := by
  simp only [NewTelemetryConfig]
  cases (getTelemetryDisableConfig α LookupEnv).1 <;>
    cases (getTelemetryDebugConfig α LookupEnv).1 <;> rfl

theorem getTelemetryDisableConfig_true_iff (α : Type)
    (LookupEnv : GoString → Option GoString) :
    (getTelemetryDisableConfig α LookupEnv).1 = true
      ↔ ∃ v, LookupEnv (lit "ARTILLERY_DISABLE_TELEMETRY") = some v
          ∧ ParseBool v = some true := by
  simp only [getTelemetryDisableConfig]
  cases h : LookupEnv (lit "ARTILLERY_DISABLE_TELEMETRY") with
  | none => simp
  | some v =>
    cases hv : ParseBool v with
    | none => simp [hv]
    | some b => cases b <;> simp [hv]

theorem getTelemetryDebugConfig_true_iff (α : Type)
    (LookupEnv : GoString → Option GoString) :
    (getTelemetryDebugConfig α LookupEnv).1 = true
      ↔ ∃ v, LookupEnv (lit "ARTILLERY_TELEMETRY_DEBUG") = some v
          ∧ ParseBool v = some true := by
  simp only [getTelemetryDebugConfig]
  cases h : LookupEnv (lit "ARTILLERY_TELEMETRY_DEBUG") with
  | none => simp
  | some v =>
    cases hv : ParseBool v with
    | none => simp [hv]
    | some b => cases b <;> simp [hv]

/-- C5: `NewTelemetryConfig` is total and resolves each switch from its own variable:
`Disable` is true exactly when `ARTILLERY_DISABLE_TELEMETRY` is present with a value that
`ParseBool` reads as true (one of `1`, `t`, `T`, `TRUE`, `true`, `True`), and likewise
`Debug` from `ARTILLERY_TELEMETRY_DEBUG`; an absent or unparseable value gives false. Both
unset gives `{false, false}`, `notabool` gives `Disable = false`, both `true` gives
`{true, true}`. -/
theorem NewTelemetryConfig_resolves (α : Type) (LookupEnv : GoString → Option GoString) :
    ((NewTelemetryConfig α LookupEnv).1.Disable = true
      ↔ ∃ v, LookupEnv (lit "ARTILLERY_DISABLE_TELEMETRY") = some v ∧ ParseBool v = some true) ∧
    ((NewTelemetryConfig α LookupEnv).1.Debug = true
      ↔ ∃ v, LookupEnv (lit "ARTILLERY_TELEMETRY_DEBUG") = some v ∧ ParseBool v = some true) ∧
    (∀ v, ParseBool v = some true
      ↔ v ∈ [lit "1", lit "t", lit "T", lit "TRUE", lit "true", lit "True"]) ∧
    ParseBool (lit "notabool") = none ∧
    (NewTelemetryConfig α (fun _ => none)).1 = ⟨false, false⟩ ∧
    (NewTelemetryConfig α
      (envOf [⟨lit "ARTILLERY_DISABLE_TELEMETRY", lit "notabool"⟩])).1 = ⟨false, false⟩ ∧
    (NewTelemetryConfig α
      (envOf [⟨lit "ARTILLERY_DISABLE_TELEMETRY", lit "true"⟩,
        ⟨lit "ARTILLERY_TELEMETRY_DEBUG", lit "true"⟩])).1 = ⟨true, true⟩ := by
  refine ⟨?_, ?_, ParseBool_true_iff, by decide!, rfl, rfl, rfl⟩
  · rw [NewTelemetryConfig_fst]
    exact getTelemetryDisableConfig_true_iff α LookupEnv
  · rw [NewTelemetryConfig_fst]
    exact getTelemetryDebugConfig_true_iff α LookupEnv

/-- C6: for every configuration `c`, `c.toEnvVar()` is the two pairs
`ARTILLERY_DISABLE_TELEMETRY = FormatBool(c.Disable)` and
`ARTILLERY_TELEMETRY_DEBUG = FormatBool(c.Debug)`, and `NewTelemetryConfig`, run in an
environment that holds exactly these two pairs, returns `c`. -/
theorem toEnvVar_round_trip (α : Type) (c : TelemetryConfig) :
    c.toEnvVar = [⟨lit "ARTILLERY_DISABLE_TELEMETRY", FormatBool c.Disable⟩,
      ⟨lit "ARTILLERY_TELEMETRY_DEBUG", FormatBool c.Debug⟩] ∧
    (NewTelemetryConfig α (envOf c.toEnvVar)).1 = c := by
  refine ⟨rfl, ?_⟩
  rcases c with ⟨_ | _, _ | _⟩ <;> rfl

/-! ## The dispatch client factory -/

/-- C7: with `Disable = true`, whatever `Debug` is, `NewTelemetryClient` returns the no-op
client and a `nil` error; and every operation of the no-op client succeeds at once:
`Enqueue`, `Close` and `ReloadFeatureFlags` return `nil`, `IsFeatureEnabled` returns
`(true, nil)` also for the default `false`, and `GetFeatureFlags` returns no flag and
`nil`. -/
theorem NewTelemetryClient_disabled_noop {α ε φ : Type} (p : Platform ε)
    (NewWithConfig : GoString → Config → Option (Client α ε φ) × Option ε) (debug : Bool) :
    NewTelemetryClient p NewWithConfig ⟨true, debug⟩ = (some (noopClient α ε φ), none) ∧
    (∀ m n, (noopClient α ε φ).Enqueue m n = (none, n)) ∧
    (∀ n, (noopClient α ε φ).Close n = (none, n)) ∧
    (∀ n, (noopClient α ε φ).ReloadFeatureFlags n = (none, n)) ∧
    (∀ key distinctId defaultResult n,
      (noopClient α ε φ).IsFeatureEnabled key distinctId defaultResult n = ((true, none), n)) ∧
    (∀ n, (noopClient α ε φ).GetFeatureFlags n = (([], none), n)) :=
  ⟨rfl, fun _ _ => rfl, fun _ => rfl, fun _ => rfl, fun _ _ _ _ => rfl, fun _ => rfl⟩

/-! ## The identity hasher -/

/-- C8: `hashEncode` is a function of its argument alone, defined on every string: the
padded base64 text of the 20-byte SHA-1 digest. Its value is always 28 bytes long, 27
characters of the base64 alphabet followed by a single `=`, all printable; and
`hashEncode("")` is the non-empty text `2jmj7l5rSw0yVb/vlWAYkK/YBwk=`. -/
theorem hashEncode_fixed_length (v : GoString) :
    hashEncode v = EncodeToString (sha1Sum v) ∧
    (sha1Sum v).length = 20 ∧
    (hashEncode v).length = 28 ∧
    (∃ body, hashEncode v = body ++ [padChar] ∧ body.length = 27 ∧
      ∀ x ∈ body, x ∈ encodeStd ∧ x ≠ padChar) ∧
    (∀ x ∈ hashEncode v, 0x20 < x.val ∧ x.val < 0x7F) ∧
    hashEncode (lit "") = lit "2jmj7l5rSw0yVb/vlWAYkK/YBwk=" ∧
    hashEncode (lit "") ≠ [] := by
  obtain ⟨body, hb, hlen, hmem⟩ := Encode_two_left 6 (sha1Sum v) (sha1Sum_length v)
  have he : hashEncode v = body ++ [padChar] := hb
  refine ⟨rfl, sha1Sum_length v, ?_, ⟨body, he, hlen, ?_⟩, ?_, by decide!, by decide!⟩
  · rw [he, List.length_append, hlen]
    rfl
  · intro x hx
    exact ⟨hmem x hx, fun e => padChar_not_mem (e ▸ hmem x hx)⟩
  · intro x hx
    rw [he] at hx
    rcases List.mem_append.mp hx with h | h
    · exact encodeStd_printable x (hmem x h)
    · rw [List.mem_singleton.mp h]
      decide

/-- C10: the text encoding of `hashEncode` loses nothing: two strings have the same
`hashEncode` exactly when they have the same SHA-1 digest, since the base64 encoding is
injective (on 20-byte inputs as on all others). -/
theorem hashEncode_eq_iff_digest_eq (s1 s2 : GoString) :
    (hashEncode s1 = hashEncode s2 ↔ sha1Sum s1 = sha1Sum s2) ∧
    (∀ x y : GoString, x.length = 20 → y.length = 20 →
      EncodeToString x = EncodeToString y → x = y) :=
  ⟨⟨fun h => Encode_injective h, fun h => congrArg EncodeToString h⟩,
    fun _ _ _ _ h => Encode_injective h⟩

end Telemetry
